import Mathlib

/-!
Verification of the virtualization-inventory normalization and analytics
pipeline (`src/sources/base_processor.py`, `src/sources/rhv_processor.py`,
`src/sources/vmware_processor.py`) against its natural-language specification.

The pipeline is shallowly embedded: a spreadsheet cell is a `Cell` (a missing
value, a rational number, a text, or a timestamp); a table handed to a
processor's `_clean_data` is a list of rows plus one boolean per canonical
column recording whether that column is present after the rename step; pandas
column operations become list operations, and operations that can raise
(`KeyError` on a missing column, `TypeError`/`ValueError` on non-numeric
columns) return `Except String`.
-/

namespace NewMigration

/- The Batteries rational arithmetic is `@[irreducible]`; concrete inputs in
witnesses and counterexamples are evaluated by `decide`, which needs these
definitions to unfold. -/
attribute [local semireducible] Rat.mul Rat.add Rat.sub Rat.inv

deriving instance DecidableEq for Except

/-! ## Basic string utilities (models of Python primitives) -/

/-- Model of Python's `str.lower()` (character-wise lowering; the OS labels
involved are ASCII). -/
def pyLower (s : String) : String :=
  String.mk (s.toList.map Char.toLower)

/-- Case-sensitive test that the first list is an initial segment of the
second (model of Python's startswith used to build substring search). -/
def leadEq : List Char → List Char → Bool
  | [], _ => true
  | _ :: _, [] => false
  | a :: as, b :: bs => a == b && leadEq as bs

/-- Search for `needle` anywhere in the haystack. -/
def subSearch (needle : List Char) : List Char → Bool
  | [] => leadEq needle []
  | b :: bs => leadEq needle (b :: bs) || subSearch needle bs

/-- Model of Python's `needle in hay` substring test. -/
def strContains (hay needle : String) : Bool :=
  subSearch needle.toList hay.toList

/-- Characters matched by the regex class `\s` / stripped by `str.strip()`. -/
def isPySpace (c : Char) : Bool :=
  c == ' ' || c == '\t' || c == '\n' || c == '\r' || c == '\x0b' || c == '\x0c'

/-- Model of Python's `str.strip()`. -/
def pyStrip (s : String) : String :=
  String.mk (((s.toList.dropWhile isPySpace).reverse.dropWhile isPySpace).reverse)

/-- Case-insensitive literal match at the head of the input; returns the
remaining characters on success (building block for the `re.match` calls,
which are all anchored at the start of the string). -/
def matchCI : List Char → List Char → Option (List Char)
  | [], rest => some rest
  | _ :: _, [] => none
  | p :: ps, c :: cs => if p.toLower == c.toLower then matchCI ps cs else none

/-- Leading maximal run of decimal digits, as matched by a greedy `\d+`;
`none` when there is no leading digit. -/
def leadDigits (cs : List Char) : Option String :=
  let d := cs.takeWhile Char.isDigit
  if d.isEmpty then none else some (String.mk d)

/-- Value of a digit run. -/
def digitsVal (l : List Char) : Nat :=
  l.foldl (fun n c => 10 * n + (c.toNat - 48)) 0

/-- Model of `pd.to_numeric` string parsing: optional sign, integer part,
optional decimal fraction.  Exponent notation is not modelled; strings it
would accept beyond this grammar play no role in any claim. -/
def parseNum (s : String) : Option ℚ :=
  let cs := (pyStrip s).toList
  let signed : Bool × List Char :=
    match cs with
    | '-' :: rest => (true, rest)
    | '+' :: rest => (false, rest)
    | l => (false, l)
  let ip := signed.2.takeWhile Char.isDigit
  let rest := signed.2.dropWhile Char.isDigit
  let mag : Option ℚ :=
    match rest with
    | [] => if ip.isEmpty then none else some ((digitsVal ip : ℚ))
    | '.' :: frac =>
      if frac.all Char.isDigit && !(ip.isEmpty && frac.isEmpty) then
        some ((digitsVal ip : ℚ) + (digitsVal frac : ℚ) / ((10 : ℚ) ^ frac.length))
      else none
    | _ => none
  mag.map (fun q => if signed.1 then -q else q)

/-! ## Cells, dates and numeric coercions -/

/-- A creation timestamp at the granularity the pipeline distinguishes:
an absolute month index (the value `to_period('M')` collapses to) and an
ordinal within the month (day and time of day). -/
abbrev PDate := ℕ × ℕ

/-- One spreadsheet cell as produced by `pd.read_excel`: a missing value
(NaN/NaT), a number, a text, or a date-typed cell. -/
inductive Cell where
  | na : Cell
  | num : ℚ → Cell
  | str : String → Cell
  | date : PDate → Cell
deriving DecidableEq

/-- Model of `pd.isna` on a single cell. -/
def pdIsna : Cell → Bool
  | .na => true
  | _ => false

/-- Decimal-ish rendering of a rational, standing in for Python float
formatting.  The exact digits differ from Python's, but the rendering
contains no alphabetic characters, so every case-insensitive search for an
OS token ("windows", "rhel 7", ...) behaves as in the original. -/
def ratStr (q : ℚ) : String :=
  toString q.num ++ (if q.den = 1 then ("") else ("/") ++ toString q.den)

/-- Model of Python's `str(cell)`: `str(float('nan'))` is `"nan"`; a
timestamp renders through digits and punctuation only. -/
def pyStr : Cell → String
  | .na => ("nan")
  | .str s => s
  | .num q => ratStr q
  | .date p => ("<") ++ toString p.1 ++ ("-") ++ toString p.2 ++ (">")

/-- Model of `pd.to_numeric(·, errors='coerce')` on one cell: numbers pass
through, numeric strings parse, everything else (including NaN) is NaN.
A date-typed cell is modelled as unconvertible; no claim exercises a
timestamp inside a numeric column. -/
def to_numeric : Cell → Option ℚ
  | .na => none
  | .num q => some q
  | .str s => parseNum s
  | .date _ => none

/-- Truncation toward zero, the conversion `.astype(int)` applies. -/
def truncInt (q : ℚ) : ℤ :=
  if q < 0 then -⌊-q⌋ else ⌊q⌋

/-- Round half to even on a rational, as numpy/pandas `round` does. -/
def roundHalfEven (q : ℚ) : ℤ :=
  let n := ⌊q⌋
  let f := q - (n : ℚ)
  if f < 1/2 then n
  else if 1/2 < f then n + 1
  else if Even n then n else n + 1

/-- Model of `round(x, 1)` (banker's rounding to one decimal). -/
def round1 (q : ℚ) : ℚ := (roundHalfEven (q * 10) : ℚ) / 10

/-- Model of `round(x, 2)` / `.round(2)`. -/
def round2 (q : ℚ) : ℚ := (roundHalfEven (q * 100) : ℚ) / 100

/-! ## Per-record classification functions (`BaseProcessor`) -/

/-- `BaseProcessor.get_os_family` (base_processor.py:57-64): NaN is
`Unknown`; a label containing "windows" case-insensitively is `Windows`;
anything else — including the literal string "Unknown" — is `Linux`. -/
def get_os_family (guest_os : Cell) : String :=
  if pdIsna guest_os then ("Unknown")
  else if strContains (pyLower (pyStr guest_os)) ("windows") then ("Windows")
  else ("Linux")

/-- The anchored regex `(RHEL|Red Hat Enterprise Linux)\s*(\d+)` with
`re.IGNORECASE`, returning group 2.  No string matching the first
alternative's prefix can match the second, so trying the alternatives in
order needs no further backtracking. -/
def rhelMatch (s : String) : Option String :=
  let cs := s.toList
  let alt1 := (matchCI ("rhel").toList cs).bind
    (fun r => leadDigits (r.dropWhile isPySpace))
  match alt1 with
  | some v => some v
  | none => (matchCI ("red hat enterprise linux").toList cs).bind
      (fun r => leadDigits (r.dropWhile isPySpace))

/-- The anchored regex `Windows\s*(Server\s*)?(\d+)` with `re.IGNORECASE`,
returning group 2.  The greedy optional `Server\s*` group backtracks when
no digits follow it. -/
def winMatch (s : String) : Option String :=
  (matchCI ("windows").toList s.toList).bind (fun r =>
    let r1 := r.dropWhile isPySpace
    match (matchCI ("server").toList r1).bind
        (fun r2 => leadDigits (r2.dropWhile isPySpace)) with
    | some y => some y
    | none => leadDigits r1)

/-- `BaseProcessor.get_consolidated_os` (base_processor.py:66-89).  The
source's second Windows regex `Windows\s*(\d+)` matches only when
`winMatch` already did (the `Server` group is optional), so that branch
coincides with returning the unchanged string. -/
def get_consolidated_os (guest_os : Cell) : String :=
  if pdIsna guest_os then ("Unknown")
  else
    let os_str := pyStrip (pyStr guest_os)
    match rhelMatch os_str with
    | some major => ("RHEL ") ++ major
    | none =>
      if strContains (pyLower os_str) ("windows") then
        match winMatch os_str with
        | some year => ("Windows ") ++ year
        | none => os_str
      else os_str

/-- `BaseProcessor.get_size_category` (base_processor.py:91-105). -/
def get_size_category (mem_gb vcpus : ℤ) : String :=
  if mem_gb > 64 ∨ vcpus > 16 then ("X-Large")
  else if mem_gb > 32 ∨ vcpus > 8 then ("Large")
  else if mem_gb > 8 ∨ vcpus > 4 then ("Medium")
  else ("Small")

/-- The source's local `is_rhel7`: `'rhel 7' in str(guest_os).lower() or
'rhel7' in str(guest_os).lower()`. -/
def isRhel7 (guest_os : Cell) : Bool :=
  strContains (pyLower (pyStr guest_os)) ("rhel 7") ||
    strContains (pyLower (pyStr guest_os)) ("rhel7")

/-- `BaseProcessor.get_migration_complexity` (base_processor.py:107-128).
`is_large` is `mem_gb > 64 or vcpus > 16`, inlined at both use sites. -/
def get_migration_complexity (guest_os : Cell) (os_family : String)
    (mem_gb vcpus : ℤ) : String :=
  if os_family = ("Windows") then
    if mem_gb > 64 ∨ vcpus > 16 then ("High") else ("Medium")
  else if isRhel7 guest_os then ("Medium")
  else if mem_gb > 64 ∨ vcpus > 16 then ("Medium")
  else ("Low")

/-- Per-row `storage_efficiency` (base_processor.py:141-144):
`round(used/provisioned*100, 1)` when provisioned > 0, else 0.  `none`
models a NaN operand (NaN provisioned storage compares false with 0 and
yields the 0 branch; NaN used storage propagates NaN). -/
def storage_efficiency (used prov : Option ℚ) : Option ℚ :=
  match prov with
  | some p =>
    if p > 0 then
      match used with
      | some u => some (round1 (u / p * 100))
      | none => none
    else some 0
  | none => some 0

/-! ## Normalized and derived records -/

/-- One Normalized Record: a row of the frame `_clean_data` returns, read
through the canonical schema of `load_and_normalize`'s contract
(base_processor.py:34-52). -/
structure NRec where
  vm_name : Cell
  cluster_name : Cell
  guest_os : Cell
  vm_host : Cell
  status : Cell
  mem_size_GB : ℤ
  num_of_cpus : ℤ
  storage_size_GB : Option ℚ
  used_size_GB : Option ℚ
  creation_date : Option PDate
deriving DecidableEq

/-- One Derived Record: a Normalized Record plus the columns
`add_derived_fields` appends. -/
structure DRec where
  vm_name : Cell
  cluster_name : Cell
  guest_os : Cell
  vm_host : Cell
  status : Cell
  mem_size_GB : ℤ
  num_of_cpus : ℤ
  storage_size_GB : Option ℚ
  used_size_GB : Option ℚ
  creation_date : Option PDate
  os_family : String
  os_consolidated : String
  size_category : String
  complexity : String
  storage_efficiency_pct : Option ℚ
deriving DecidableEq

/-- One row of `BaseProcessor.add_derived_fields` (base_processor.py:131-148).
`complexity` is computed from the `os_family` value written just before,
exactly as the source reads `r['os_family']` after the first `apply`. -/
def deriveRecord (r : NRec) : DRec :=
  let fam := get_os_family r.guest_os
  { vm_name := r.vm_name
    cluster_name := r.cluster_name
    guest_os := r.guest_os
    vm_host := r.vm_host
    status := r.status
    mem_size_GB := r.mem_size_GB
    num_of_cpus := r.num_of_cpus
    storage_size_GB := r.storage_size_GB
    used_size_GB := r.used_size_GB
    creation_date := r.creation_date
    os_family := fam
    os_consolidated := get_consolidated_os r.guest_os
    size_category := get_size_category r.mem_size_GB r.num_of_cpus
    complexity := get_migration_complexity r.guest_os fam r.mem_size_GB r.num_of_cpus
    storage_efficiency_pct := storage_efficiency r.used_size_GB r.storage_size_GB }

/-- `BaseProcessor.add_derived_fields`: row-wise application of the
classification functions. -/
def add_derived_fields (l : List NRec) : List DRec :=
  l.map deriveRecord

/-! ## Migration waves and complexity-by-OS (`BaseProcessor`) -/

/-- One entry of the list `compute_migration_waves` returns
(base_processor.py:239-295). -/
structure Wave where
  wave : ℕ
  name : String
  description : String
  criteria : String
  vm_count : ℕ
  vcpus : ℤ
  memory_gb : ℤ
deriving DecidableEq

/-- Wave-1 filter `(complexity == 'Low') & (os_family == 'Linux')`. -/
def wave1Pred (r : DRec) : Bool :=
  r.complexity == ("Low") && r.os_family == ("Linux")

/-- Wave-2 filter `(complexity == 'Medium') & (os_family == 'Linux')`. -/
def wave2Pred (r : DRec) : Bool :=
  r.complexity == ("Medium") && r.os_family == ("Linux")

/-- Wave-3 filter `(complexity == 'Medium') & (os_family == 'Windows')`. -/
def wave3Pred (r : DRec) : Bool :=
  r.complexity == ("Medium") && r.os_family == ("Windows")

/-- Wave-4 filter `complexity == 'High'`. -/
def wave4Pred (r : DRec) : Bool :=
  r.complexity == ("High")

/-- The dictionary appended for one non-empty wave: VM count and summed
vCPU/memory of the filtered subset. -/
def mkWave (n : ℕ) (nm de cr : String) (s : List DRec) : Wave :=
  { wave := n, name := nm, description := de, criteria := cr,
    vm_count := s.length,
    vcpus := (s.map (fun r => r.num_of_cpus)).sum,
    memory_gb := (s.map (fun r => r.mem_size_GB)).sum }

/-- `BaseProcessor.compute_migration_waves` (base_processor.py:239-295):
four fixed filters, each appended only when non-empty. -/
def compute_migration_waves (l : List DRec) : List Wave :=
  (let w := l.filter wave1Pred
   if w.length > 0 then
     [mkWave 1 ("Pilot - Low Complexity Linux") ("RHEL 8/9 VMs with standard sizing")
       ("Linux, Low complexity, Small/Medium size") w]
   else []) ++
  (let w := l.filter wave2Pred
   if w.length > 0 then
     [mkWave 2 ("Linux Extended") ("RHEL 7 and large Linux VMs")
       ("Linux, Medium complexity") w]
   else []) ++
  (let w := l.filter wave3Pred
   if w.length > 0 then
     [mkWave 3 ("Windows Standard") ("Windows VMs with standard sizing")
       ("Windows, <=64GB RAM, <=16 vCPU") w]
   else []) ++
  (let w := l.filter wave4Pred
   if w.length > 0 then
     [mkWave 4 ("High Complexity") ("Large Windows VMs requiring special attention")
       ("Windows, >64GB RAM or >16 vCPU") w]
   else [])

/-- First-occurrence de-duplication, the order `pandas.Series.unique`
returns distinct values in. -/
def uniqueAux {α : Type} [BEq α] (seen : List α) : List α → List α
  | [] => []
  | a :: as =>
    if seen.contains a then uniqueAux seen as
    else a :: uniqueAux (a :: seen) as

/-- `BaseProcessor.compute_complexity_by_os` (base_processor.py:331-341):
for each distinct consolidated-OS value, the count of Low, Medium and High
complexity records within that group. -/
def compute_complexity_by_os (l : List DRec) : List (String × (ℕ × ℕ × ℕ)) :=
  (uniqueAux [] (l.map (fun r => r.os_consolidated))).map (fun os =>
    let subset := l.filter (fun r => r.os_consolidated == os)
    (os, ((subset.filter (fun r => r.complexity == ("Low"))).length,
          (subset.filter (fun r => r.complexity == ("Medium"))).length,
          (subset.filter (fun r => r.complexity == ("High"))).length)))

/-- C3 counterexample input: one named record with a missing (NaN) guest-OS
cell and 100 GB memory.  Its OS family is Unknown and — being large — its
complexity is Medium, so it is excluded from all four waves while having
complexity Medium, not Low. -/
def c3Rec : NRec :=
  { vm_name := Cell.str ("vm-a"), cluster_name := Cell.str ("c1"),
    guest_os := Cell.na, vm_host := Cell.str ("h1"), status := Cell.str ("On"),
    mem_size_GB := 100, num_of_cpus := 2,
    storage_size_GB := some 10, used_size_GB := some 5, creation_date := none }

/-- C10 witness input: one named RHEL 8.6 record with standard sizing. -/
def c10Rec : NRec :=
  { vm_name := Cell.str ("vm-b"), cluster_name := Cell.str ("c1"),
    guest_os := Cell.str ("RHEL 8.6"), vm_host := Cell.str ("h1"),
    status := Cell.str ("On"), mem_size_GB := 4, num_of_cpus := 2,
    storage_size_GB := some 10, used_size_GB := some 5, creation_date := none }

/-! ## Growth trends (`BaseProcessor.compute_growth_trends`) -/

/-- Insertion of one element into a sorted list. -/
def insertLe {α : Type} (le : α → α → Bool) (a : α) : List α → List α
  | [] => [a]
  | b :: bs => if le a b then a :: b :: bs else b :: insertLe le a bs

/-- Insertion sort, modelling `DataFrame.sort_values` (ascending). -/
def sortLe {α : Type} (le : α → α → Bool) : List α → List α
  | [] => []
  | a :: as => insertLe le a (sortLe le as)

/-- Sort key of a dated record (rows are filtered to `notna` before any
sort, so the default only pads totality). -/
def dateKey (r : NRec) : PDate := r.creation_date.getD (0, 0)

/-- Chronological comparison of two records' creation timestamps
(month index first, then the ordinal within the month). -/
def dateLe (a b : NRec) : Bool :=
  decide ((dateKey a).1 < (dateKey b).1) ||
    ((dateKey a).1 == (dateKey b).1 && decide ((dateKey a).2 ≤ (dateKey b).2))

/-- The calendar month a record's creation date falls in — the value
`.dt.to_period('M')` produces. -/
def monthOf (r : NRec) : ℕ := (dateKey r).1

/-- Maximal runs of rows sharing one key, with that key: the groups
`groupby` forms on data already sorted by the grouping key. -/
def runsAux {α : Type} (key : α → ℕ) (m : ℕ) (acc : List α) :
    List α → List (ℕ × List α)
  | [] => [(m, acc.reverse)]
  | a :: as =>
    if key a == m then runsAux key m (a :: acc) as
    else (m, acc.reverse) :: runsAux key (key a) [a] as

/-- Group a list into key-runs (see `runsAux`). -/
def runsBy {α : Type} (key : α → ℕ) : List α → List (ℕ × List α)
  | [] => []
  | a :: as => runsAux key (key a) [a] as

/-- Running cumulative totals, as `Series.cumsum`. -/
def cumsum {α : Type} [Add α] : List α → List α
  | [] => []
  | x :: xs => x :: (cumsum xs).map (fun y => x + y)

/-- The dictionary `compute_growth_trends` returns: aligned per-month and
cumulative series.  (The source also aggregates `storage_size_GB` per month
but never emits it; that unused column is omitted.) -/
structure Trends where
  months : List ℕ
  monthly_vms : List ℕ
  monthly_vcpus : List ℤ
  monthly_memory : List ℤ
  cumulative_vms : List ℕ
  cumulative_vcpus : List ℤ
  cumulative_memory : List ℤ
deriving DecidableEq

/-- `BaseProcessor.compute_growth_trends` (base_processor.py:298-329),
split into named pieces: `None` without temporal data or dated rows;
otherwise sort the dated rows chronologically, bucket by calendar month,
and emit per-month VM counts and vCPU/memory sums together with their
cumulative series.  The monthly buckets: filter to `notna` creation dates,
sort (`sort_values`), group by calendar month. -/
def monthGroups (l : List NRec) : List (ℕ × List NRec) :=
  runsBy monthOf (sortLe dateLe (l.filter (fun r => r.creation_date.isSome)))

/-- Per-month VM counts: the count aggregation on the name column counts
non-NaN names within each month. -/
def monthlyVms (l : List NRec) : List ℕ :=
  (monthGroups l).map (fun g => (g.2.filter (fun r => !(pdIsna r.vm_name))).length)

/-- Per-month vCPU sums. -/
def monthlyVcpus (l : List NRec) : List ℤ :=
  (monthGroups l).map (fun g => (g.2.map (fun r => r.num_of_cpus)).sum)

/-- Per-month memory sums. -/
def monthlyMemory (l : List NRec) : List ℤ :=
  (monthGroups l).map (fun g => (g.2.map (fun r => r.mem_size_GB)).sum)

/-- The series bundle emitted on the dated path. -/
def trendsOf (l : List NRec) : Trends :=
  { months := (monthGroups l).map Prod.fst
    monthly_vms := monthlyVms l
    monthly_vcpus := monthlyVcpus l
    monthly_memory := monthlyMemory l
    cumulative_vms := cumsum (monthlyVms l)
    cumulative_vcpus := cumsum (monthlyVcpus l)
    cumulative_memory := cumsum (monthlyMemory l) }

/-- `BaseProcessor.compute_growth_trends` main dispatch. -/
def compute_growth_trends (has_date_data : Bool) (l : List NRec) : Option Trends :=
  if !has_date_data then none
  else
    let dated := l.filter (fun r => r.creation_date.isSome)
    if dated.length = 0 then none
    else some (trendsOf l)

/-- C8 witness input: two dated records in different months plus one
undated record. -/
def c8Recs : List NRec :=
  [{ vm_name := Cell.str ("vm-1"), cluster_name := Cell.str ("c1"),
     guest_os := Cell.str ("RHEL 8.6"), vm_host := Cell.str ("h1"),
     status := Cell.str ("On"), mem_size_GB := 4, num_of_cpus := 2,
     storage_size_GB := some 10, used_size_GB := some 5,
     creation_date := some (25, 3) },
   { vm_name := Cell.str ("vm-2"), cluster_name := Cell.str ("c1"),
     guest_os := Cell.str ("RHEL 9.2"), vm_host := Cell.str ("h1"),
     status := Cell.str ("Off"), mem_size_GB := 8, num_of_cpus := 4,
     storage_size_GB := some 20, used_size_GB := some 5,
     creation_date := some (24, 10) },
   { vm_name := Cell.str ("vm-3"), cluster_name := Cell.str ("c2"),
     guest_os := Cell.str ("Windows Server 2019"), vm_host := Cell.str ("h2"),
     status := Cell.str ("On"), mem_size_GB := 16, num_of_cpus := 8,
     storage_size_GB := some 40, used_size_GB := some 10,
     creation_date := none }]

/-! ## Aggregate statistics (`BaseProcessor.compute_statistics`) -/

/-- A value stored in the statistics dictionary: a count, an integer sum, a
rounded rational, a formatted date (represented by the date itself — the
`%Y-%m-%d` rendering is injective), or a month period. -/
inductive SVal where
  | n : ℕ → SVal
  | i : ℤ → SVal
  | q : ℚ → SVal
  | d : PDate → SVal
  | m : ℕ → SVal
deriving DecidableEq

/-- pandas column sum: NaN entries are skipped. -/
def sumOpt (l : List (Option ℚ)) : ℚ := (l.filterMap id).sum

/-- `Series.nunique`: the number of distinct non-null values. -/
def nuniqueCells (cells : List Cell) : ℕ :=
  (uniqueAux [] (cells.filter (fun c => !(pdIsna c)))).length

/-- Lexicographic minimum of a list of timestamps (`Series.min`). -/
def pdateMin (l : List PDate) : Option PDate :=
  l.foldl (fun acc d =>
    match acc with
    | none => some d
    | some m => if d.1 < m.1 ∨ (d.1 = m.1 ∧ d.2 < m.2) then some d else some m) none

/-- Lexicographic maximum of a list of timestamps (`Series.max`). -/
def pdateMax (l : List PDate) : Option PDate :=
  l.foldl (fun acc d =>
    match acc with
    | none => some d
    | some m => if m.1 < d.1 ∨ (m.1 = d.1 ∧ m.2 < d.2) then some d else some m) none

/-- `groupby('month').size()`: per-month record counts, keyed by month in
ascending month order. -/
def monthCounts (ds : List PDate) : List (ℕ × ℕ) :=
  (runsBy id (sortLe (fun a b => decide (a ≤ b)) (ds.map Prod.fst))).map
    (fun g => (g.1, g.2.length))

/-- `Series.idxmax` paired with `max`: the first entry carrying the maximal
count, in key order. -/
def peakOf (mc : List (ℕ × ℕ)) : Option (ℕ × ℕ) :=
  mc.foldl (fun acc p =>
    match acc with
    | none => some p
    | some m => if p.2 > m.2 then some p else some m) none

/-- The always-computed statistics entries (base_processor.py:151-161). -/
def base_stats (l : List NRec) : List (String × SVal) :=
  [(("total_vms"), SVal.n l.length),
   (("total_vcpus"), SVal.i ((l.map (fun r => r.num_of_cpus)).sum)),
   (("total_memory_gb"), SVal.i ((l.map (fun r => r.mem_size_GB)).sum)),
   (("total_storage_provisioned_gb"),
     SVal.q (round2 (sumOpt (l.map (fun r => r.storage_size_GB))))),
   (("total_storage_used_gb"),
     SVal.q (round2 (sumOpt (l.map (fun r => r.used_size_GB))))),
   (("clusters"), SVal.n (nuniqueCells (l.map (fun r => r.cluster_name)))),
   (("hosts"), SVal.n (nuniqueCells (l.map (fun r => r.vm_host)))),
   (("running_vms"), SVal.n ((l.filter (fun r => r.status == Cell.str ("On"))).length)),
   (("stopped_vms"), SVal.n ((l.filter (fun r => r.status == Cell.str ("Off"))).length))]

/-- The date-derived statistics entries (base_processor.py:163-177), added
only when the source reports temporal data and at least one row carries a
valid creation date. -/
def date_stats (has_date_data : Bool) (l : List NRec) : List (String × SVal) :=
  if !has_date_data then []
  else
    let valid := l.filterMap (fun r => r.creation_date)
    if valid.length > 0 then
      (let mc := monthCounts valid
       [(("first_vm_date"), SVal.d ((pdateMin valid).getD (0, 0))),
        (("last_vm_date"), SVal.d ((pdateMax valid).getD (0, 0)))] ++
       (if mc.length > 0 then
         [(("avg_vms_per_month"),
            SVal.q (round1 (((mc.map Prod.snd).sum : ℚ) / (mc.length : ℚ)))),
          (("peak_month"), SVal.m (((peakOf mc).getD (0, 0)).1)),
          (("peak_month_count"), SVal.n (((peakOf mc).getD (0, 0)).2))]
        else []))
    else []

/-- `BaseProcessor.compute_statistics` (base_processor.py:149-179): the
always-computed entries plus, conditionally, the date-derived entries. -/
def compute_statistics (has_date_data : Bool) (l : List NRec) :
    List (String × SVal) :=
  base_stats l ++ date_stats has_date_data l

/-! ## Source processors (`RHVProcessor._clean_data`, `VMwareProcessor._clean_data`) -/

/-- The row filter shared by both processors:
`df['vm_name'].notna() & (df['vm_name'] != '')`.  A NaN name fails `notna`;
an empty string fails the inequality; any other value (including numbers)
passes both. -/
def nameKept : Cell → Bool
  | Cell.na => false
  | Cell.str s => !(s == (""))
  | _ => true

/-- Is the cell a number? -/
def isNumCell : Cell → Bool
  | Cell.num _ => true
  | _ => false

/-- Is the cell a text? -/
def isStrCell : Cell → Bool
  | Cell.str _ => true
  | _ => false

/-- The numeric value of a cell, for aggregations that skip everything
else (NaN is skipped by `quantile`). -/
def cellNumVal : Cell → Option ℚ
  | Cell.num q => some q
  | _ => none

/-- A cell that is neither numeric nor NaN (a text or date-typed cell):
arithmetic on a column containing one raises. -/
def cellNonNumeric (c : Cell) : Bool := !(isNumCell c || pdIsna c)

/-- `mem <= threshold` on a raw cell, as pandas evaluates the outlier-guard
mask: NaN compares false (so NaN-memory rows are dropped by the guard);
non-numeric cells cannot reach this point because the quantile raises
first; a date-typed cell likewise compares false. -/
def cellLe (c : Cell) (t : ℚ) : Bool :=
  match c with
  | Cell.num v => decide (v ≤ t)
  | _ => false

/-- Cell-level non-negativity in the `to_numeric` sense: whatever the cell
coerces to is non-negative (NaN and unparseable cells impose nothing). -/
def cellNonNegB (c : Cell) : Bool :=
  match to_numeric c with
  | some q => decide (0 ≤ q)
  | none => true

/-- Model of `pd.to_datetime(·, errors='coerce')` on one cell: date-typed
cells convert, everything else coerces to NaT.  (String timestamp parsing
is not reproduced; no claim depends on which strings parse.) -/
def to_datetime : Cell → Option PDate
  | Cell.date p => some p
  | _ => none

/-- Model of `Series.quantile(0.99)` (rhv_processor.py:77): raises
`TypeError` on a column holding text (object dtype is not reduced); skips
NaN; returns NaN (`none`) when no numeric value remains; otherwise linear
interpolation between the order statistics at position `0.99 * (n - 1)`. -/
def quantile99 (cells : List Cell) : Except String (Option ℚ) :=
  if cells.any isStrCell then
    Except.error ("TypeError: could not compute quantile of non-numeric column")
  else
    match sortLe (fun a b => decide (a ≤ b)) (cells.filterMap cellNumVal) with
    | [] => Except.ok none
    | v :: vs =>
      let n := (v :: vs).length
      let pos : ℚ := (99 / 100) * ((n : ℚ) - 1)
      let i : ℕ := (⌊pos⌋).toNat
      let lo := (v :: vs).getD i v
      let hi := (v :: vs).getD (i + 1) lo
      Except.ok (some (lo + (pos - (i : ℚ)) * (hi - lo)))

/-- One raw row of an RHV export after the rename step of
`load_and_normalize` (rhv_processor.py:54-68): one cell per canonical
column name. -/
structure RRow where
  vm_name : Cell
  cluster_name : Cell
  guest_os : Cell
  vm_host : Cell
  status : Cell
  mem : Cell
  cpus : Cell
  storage : Cell
  used : Cell
  cdate : Cell
deriving DecidableEq

/-- An RHV table after renaming: the rows plus, for each canonical column,
whether the source schema contained it (the `'...' in df.columns` tests). -/
structure RTable where
  hasName : Bool
  hasCluster : Bool
  hasOs : Bool
  hasHost : Bool
  hasStatus : Bool
  hasMem : Bool
  hasCpus : Bool
  hasStorage : Bool
  hasUsed : Bool
  hasDate : Bool
  rows : List RRow
deriving DecidableEq

/-- The Normalized Record an RHV row becomes (rhv_processor.py:80-120):
numeric columns pass through `to_numeric(errors='coerce').fillna(0)` (then
`.astype(int)` truncation for memory and vCPU), absent columns take their
defaults, the date column passes through `to_datetime(errors='coerce')`. -/
def rhvMkRec (t : RTable) (r : RRow) : NRec :=
  { vm_name := r.vm_name
    cluster_name := if t.hasCluster then r.cluster_name else Cell.str ("Unknown")
    guest_os := if t.hasOs then r.guest_os else Cell.str ("Unknown")
    vm_host := if t.hasHost then r.vm_host else Cell.str ("Unknown")
    status := if t.hasStatus then r.status else Cell.str ("Unknown")
    mem_size_GB := if t.hasMem then truncInt ((to_numeric r.mem).getD 0) else 0
    num_of_cpus := if t.hasCpus then truncInt ((to_numeric r.cpus).getD 0) else 0
    storage_size_GB := some (if t.hasStorage then (to_numeric r.storage).getD 0 else 0)
    used_size_GB := some (if t.hasUsed then (to_numeric r.used).getD 0 else 0)
    creation_date := if t.hasDate then to_datetime r.cdate else none }

/-- `RHVProcessor._clean_data` (rhv_processor.py:70-123): error when the
name column is absent (`df['vm_name']` raises `KeyError`); drop unnamed
rows; when more than one row remains and the memory column is present,
compute the 99th-percentile guard (whose quantile raises on a non-numeric
column, and whose NaN threshold — all-NaN memory — drops every row);
then coerce and default the remaining columns row-wise. -/
def RHVProcessor.clean_data (t : RTable) : Except String (List NRec) :=
  if !t.hasName then Except.error ("KeyError: vm_name")
  else
    let rows1 := t.rows.filter (fun r => nameKept r.vm_name)
    if rows1.length > 1 ∧ t.hasMem = true then
      match quantile99 (rows1.map (fun r => r.mem)) with
      | Except.error e => Except.error e
      | Except.ok none => Except.ok ((rows1.filter (fun _ => false)).map (rhvMkRec t))
      | Except.ok (some qv) =>
        Except.ok ((rows1.filter (fun r => cellLe r.mem (qv * 10))).map (rhvMkRec t))
    else Except.ok (rows1.map (rhvMkRec t))

/-- One raw row of an RVTools vInfo sheet after `_normalize_columns`
(vmware_processor.py:70-92): one cell per recognized column, plus the cell
of the discovered creation-date column (when the probe found one). -/
structure VRow where
  vm_name : Cell
  cluster_name : Cell
  datacenter : Cell
  vm_host : Cell
  guest_os : Cell
  guest_os_config : Cell
  power_state : Cell
  memory_mb : Cell
  cpus : Cell
  prov_mb : Cell
  used_mb : Cell
  date_cell : Cell
deriving DecidableEq

/-- A VMware table after renaming: rows plus column-presence flags.
`dateColFound` records the outcome of `_find_creation_date_column`
(a pure function of the column names, which the row model does not carry). -/
structure VTable where
  hasName : Bool
  hasCluster : Bool
  hasDatacenter : Bool
  hasHost : Bool
  hasOs : Bool
  hasOsConfig : Bool
  hasPower : Bool
  hasMemory : Bool
  hasCpus : Bool
  hasProv : Bool
  hasUsed : Bool
  dateColFound : Bool
  rows : List VRow
deriving DecidableEq

/-- What `VMwareProcessor._clean_data` hands back: the normalized rows, the
dynamically detected temporal-capability flag (`self._has_date_data`), and
whether any guest-OS column existed (when neither did, the returned frame
simply lacks the `guest_os` column; records then carry a NaN placeholder
and `os_present = false`). -/
structure VOut where
  recs : List NRec
  has_date : Bool
  os_present : Bool
deriving DecidableEq

/-- The Normalized Record a VMware row becomes (vmware_processor.py:102-171):
guest OS from the tools column with config-file fallback; memory
`(mb/1024).round(0).astype(int)` (reachable only when the column is fully
numeric — see the error cases of `clean_data`); storage `(mb/1024).round(2)`
with NaN passing through; vCPU `to_numeric(errors='coerce').fillna(0)`;
power state mapped `poweredOn/poweredOff` to `On/Off`, else `Unknown`;
cluster falling back to datacenter when the cluster column is absent or
all-NaN. -/
def vmwareMkRec (t : VTable) (clusterAllNa : Bool) (r : VRow) : NRec :=
  { vm_name := r.vm_name
    cluster_name :=
      if !t.hasCluster || clusterAllNa then
        (if t.hasDatacenter then r.datacenter else Cell.str ("Unknown"))
      else r.cluster_name
    guest_os :=
      if t.hasOs then
        (if t.hasOsConfig && pdIsna r.guest_os then r.guest_os_config else r.guest_os)
      else if t.hasOsConfig then r.guest_os_config
      else Cell.na
    vm_host := if t.hasHost then r.vm_host else Cell.str ("Unknown")
    status :=
      if t.hasPower then
        (match r.power_state with
         | Cell.str s =>
           if s = ("poweredOn") then Cell.str ("On")
           else if s = ("poweredOff") then Cell.str ("Off")
           else Cell.str ("Unknown")
         | _ => Cell.str ("Unknown"))
      else Cell.str ("Unknown")
    mem_size_GB :=
      if t.hasMemory then roundHalfEven (((to_numeric r.memory_mb).getD 0) / 1024) else 0
    num_of_cpus := truncInt ((to_numeric r.cpus).getD 0)
    storage_size_GB :=
      if t.hasProv then (to_numeric r.prov_mb).map (fun q => round2 (q / 1024))
      else some 0
    used_size_GB :=
      if t.hasUsed then (to_numeric r.used_mb).map (fun q => round2 (q / 1024))
      else some 0
    creation_date := if t.dateColFound then to_datetime r.date_cell else none }

/-- `VMwareProcessor._clean_data` (vmware_processor.py:102-171), in source
order: `df['vm_name']` raises `KeyError` when the name column is absent;
unnamed rows are dropped; `df['memory_mb'] / 1024` raises `TypeError` on a
text or date cell and the subsequent `.astype(int)` raises `ValueError` on
any NaN; the storage divisions raise `TypeError` on text/date cells (NaN
passes through); `df['num_of_cpus']` raises `KeyError` when the CPU column
is absent — unlike memory and storage it has no presence guard; the
temporal flag is set iff the probed date column parsed at least one valid
date.  No outlier filtering is performed on this variant. -/
def VMwareProcessor.clean_data (t : VTable) : Except String VOut :=
  if !t.hasName then Except.error ("KeyError: vm_name")
  else
    let rows1 := t.rows.filter (fun r => nameKept r.vm_name)
    if t.hasMemory ∧ (rows1.map (fun r => r.memory_mb)).any cellNonNumeric = true then
      Except.error ("TypeError: unsupported operand in memory column")
    else if t.hasMemory ∧ (rows1.map (fun r => r.memory_mb)).any pdIsna = true then
      Except.error ("ValueError: cannot convert non-finite values to integer")
    else if t.hasProv ∧ (rows1.map (fun r => r.prov_mb)).any cellNonNumeric = true then
      Except.error ("TypeError: unsupported operand in provisioned storage column")
    else if t.hasUsed ∧ (rows1.map (fun r => r.used_mb)).any cellNonNumeric = true then
      Except.error ("TypeError: unsupported operand in used storage column")
    else if !t.hasCpus then Except.error ("KeyError: num_of_cpus")
    else Except.ok
      { recs := rows1.map (vmwareMkRec t (rows1.all (fun r => pdIsna r.cluster_name)))
        has_date := t.dateColFound && rows1.any (fun r => (to_datetime r.date_cell).isSome)
        os_present := t.hasOs || t.hasOsConfig }

/-! ## Concrete input tables for witnesses and counterexamples -/

/-- An all-NaN RHV row, overridden per test input. -/
def blankRRow : RRow :=
  { vm_name := Cell.na, cluster_name := Cell.na, guest_os := Cell.na,
    vm_host := Cell.na, status := Cell.na, mem := Cell.na, cpus := Cell.na,
    storage := Cell.na, used := Cell.na, cdate := Cell.na }

/-- An all-NaN VMware row, overridden per test input. -/
def blankVRow : VRow :=
  { vm_name := Cell.na, cluster_name := Cell.na, datacenter := Cell.na,
    vm_host := Cell.na, guest_os := Cell.na, guest_os_config := Cell.na,
    power_state := Cell.na, memory_mb := Cell.na, cpus := Cell.na,
    prov_mb := Cell.na, used_mb := Cell.na, date_cell := Cell.na }

/-- The row of the C1 failing input. -/
def c1Row : VRow :=
  { blankVRow with vm_name := Cell.str ("vm-1"), guest_os := Cell.str ("RHEL 8.6") }

/-- C1 failing input: a VMware vInfo sheet with a VM column and a guest-OS
column but no CPUs column. -/
def c1Table : VTable :=
  { hasName := true, hasCluster := false, hasDatacenter := false,
    hasHost := false, hasOs := true, hasOsConfig := false, hasPower := false,
    hasMemory := false, hasCpus := false, hasProv := false, hasUsed := false,
    dateColFound := false,
    rows := [c1Row] }

/-- C2 witness input (guard active): three named RHV rows with memory
1, 2, 3 GB. -/
def c2aTable : RTable :=
  { hasName := true, hasCluster := false, hasOs := false, hasHost := false,
    hasStatus := false, hasMem := true, hasCpus := false, hasStorage := false,
    hasUsed := false, hasDate := false,
    rows := [{ blankRRow with vm_name := Cell.str ("vm-1"), mem := Cell.num 1 },
      { blankRRow with vm_name := Cell.str ("vm-2"), mem := Cell.num 2 },
      { blankRRow with vm_name := Cell.str ("vm-3"), mem := Cell.num 3 }] }

/-- A single named RHV row with non-negative numeric cells. -/
def c2bRow : RRow :=
  { blankRRow with vm_name := Cell.str ("vm-1"), mem := Cell.num 4, cpus := Cell.num 2, storage := Cell.num 2, used := Cell.num 1 }

/-- C2/C4 witness input (guard skipped): a single-row RHV table. -/
def c2bTable : RTable :=
  { hasName := true, hasCluster := false, hasOs := false, hasHost := false,
    hasStatus := false, hasMem := true, hasCpus := true, hasStorage := true,
    hasUsed := true, hasDate := false,
    rows := [c2bRow] }

/-- C2 witness input for the vmware part: two named rows, CPU column
present, no memory/storage columns. -/
def c2cTable : VTable :=
  { hasName := true, hasCluster := false, hasDatacenter := false,
    hasHost := false, hasOs := false, hasOsConfig := false, hasPower := false,
    hasMemory := false, hasCpus := true, hasProv := false, hasUsed := false,
    dateColFound := false,
    rows := [{ blankVRow with vm_name := Cell.str ("vm-1"), cpus := Cell.num 1 },
      { blankVRow with vm_name := Cell.str ("vm-2"), cpus := Cell.num 2 }] }

/-- The output `VMwareProcessor.clean_data` produces on `c2cTable`. -/
def c2cOut : VOut :=
  { recs := (c2cTable.rows.filter (fun r => nameKept r.vm_name)).map
      (vmwareMkRec c2cTable
        ((c2cTable.rows.filter (fun r => nameKept r.vm_name)).all
          (fun r => pdIsna r.cluster_name)))
    has_date := false
    os_present := false }

/-- First C2 counterexample row: -1024000 MB of memory (-1000 GB). -/
def c2CexRow1 : VRow :=
  { blankVRow with vm_name := Cell.str ("vm-1"), memory_mb := Cell.num (-1024000), cpus := Cell.num 1 }

/-- Second C2 counterexample row: 1024 MB of memory (1 GB). -/
def c2CexRow2 : VRow :=
  { blankVRow with vm_name := Cell.str ("vm-2"), memory_mb := Cell.num 1024, cpus := Cell.num 1 }

/-- C2 counterexample input: a VMware table on which the outlier guard, had
it existed, would drop a row — the memory sizes normalize to -1000 GB and
1 GB, whose 99th percentile is -9.01, so the 1 GB row exceeds 10 times the
percentile — yet both rows are returned. -/
def c2CexTable : VTable :=
  { hasName := true, hasCluster := false, hasDatacenter := false,
    hasHost := false, hasOs := false, hasOsConfig := false, hasPower := false,
    hasMemory := true, hasCpus := true, hasProv := false, hasUsed := false,
    dateColFound := false,
    rows := [c2CexRow1, c2CexRow2] }

/-- C4 counterexample input: a single named RHV row whose memory cell holds
the negative number -5. -/
def c4Table : RTable :=
  { hasName := true, hasCluster := false, hasOs := false, hasHost := false,
    hasStatus := false, hasMem := true, hasCpus := false, hasStorage := false,
    hasUsed := false, hasDate := false,
    rows := [{ blankRRow with vm_name := Cell.str ("vm-1"), mem := Cell.num (-5) }] }

/-! ## Claims about the per-record classification functions -/

/-- C7: `get_size_category` evaluates its thresholds in descending order
with exclusive boundaries: memory > 64 or vCPU > 16 gives X-Large; else
memory > 32 or vCPU > 8 gives Large; else memory > 8 or vCPU > 4 gives
Medium; else Small.  In particular (64,16) is Large, (65,16) is X-Large,
(8,4) is Small and (9,4) is Medium. -/
theorem c7_size_category_thresholds :
    (∀ mem_gb vcpus : ℤ,
      (get_size_category mem_gb vcpus = ("X-Large") ↔ (mem_gb > 64 ∨ vcpus > 16)) ∧
      (get_size_category mem_gb vcpus = ("Large") ↔
        (¬(mem_gb > 64 ∨ vcpus > 16) ∧ (mem_gb > 32 ∨ vcpus > 8))) ∧
      (get_size_category mem_gb vcpus = ("Medium") ↔
        (¬(mem_gb > 64 ∨ vcpus > 16) ∧ ¬(mem_gb > 32 ∨ vcpus > 8) ∧
          (mem_gb > 8 ∨ vcpus > 4))) ∧
      (get_size_category mem_gb vcpus = ("Small") ↔
        (¬(mem_gb > 64 ∨ vcpus > 16) ∧ ¬(mem_gb > 32 ∨ vcpus > 8) ∧
          ¬(mem_gb > 8 ∨ vcpus > 4)))) ∧
    get_size_category 64 16 = ("Large") ∧
    get_size_category 65 16 = ("X-Large") ∧
    get_size_category 8 4 = ("Small") ∧
    get_size_category 9 4 = ("Medium") := by
  refine ⟨fun mem_gb vcpus => ?_, by decide, by decide, by decide, by decide⟩
  unfold get_size_category
  split_ifs with h1 h2 h3 <;> refine ⟨?_, ?_, ?_, ?_⟩ <;> simp_all

/-- C6: `get_migration_complexity` returns High exactly for Windows records
that are large (memory > 64 or vCPU > 16); Medium for non-large Windows
records; Medium for Linux/Unknown-family records that carry an RHEL-7 token
or are large; Low otherwise; with the spec's four concrete cases. -/
theorem c6_migration_complexity :
    (∀ (guest_os : Cell) (os_family : String) (mem_gb vcpus : ℤ),
      get_migration_complexity guest_os os_family mem_gb vcpus = ("High") ↔
        (os_family = ("Windows") ∧ (mem_gb > 64 ∨ vcpus > 16))) ∧
    (∀ (guest_os : Cell) (mem_gb vcpus : ℤ),
      get_migration_complexity guest_os ("Windows") mem_gb vcpus =
        (if mem_gb > 64 ∨ vcpus > 16 then ("High") else ("Medium"))) ∧
    (∀ (guest_os : Cell) (mem_gb vcpus : ℤ),
      get_migration_complexity guest_os ("Linux") mem_gb vcpus =
        (if isRhel7 guest_os = true ∨ mem_gb > 64 ∨ vcpus > 16
         then ("Medium") else ("Low"))) ∧
    (∀ (guest_os : Cell) (mem_gb vcpus : ℤ),
      get_migration_complexity guest_os ("Unknown") mem_gb vcpus =
        (if isRhel7 guest_os = true ∨ mem_gb > 64 ∨ vcpus > 16
         then ("Medium") else ("Low"))) ∧
    get_migration_complexity (Cell.str ("Windows")) ("Windows") 80 20 = ("High") ∧
    get_migration_complexity (Cell.str ("Windows")) ("Windows") 10 2 = ("Medium") ∧
    get_migration_complexity (Cell.str ("RHEL 7.9")) ("Linux") 4 2 = ("Medium") ∧
    get_migration_complexity (Cell.str ("RHEL 9.2")) ("Linux") 4 2 = ("Low") := by
  refine ⟨fun g f m v => ?_, fun g m v => ?_, fun g m v => ?_, fun g m v => ?_,
    by decide, by decide, by decide, by decide⟩ <;>
    unfold get_migration_complexity <;> split_ifs <;> simp_all <;> omega

/-- C5 counterexample: the claim predicts that a record carrying the
defaulted guest-OS label (the string "Unknown", filled in when the source
has no guest-OS column, rhv_processor.py:111-113) is classified with OS
family Unknown; `get_os_family` actually classifies it as Linux, because
only a genuinely missing value (NaN) is treated as unknown. -/
theorem c5_counterexample :
    get_os_family (Cell.str ("Unknown")) = ("Linux") ∧
    ¬ get_os_family (Cell.str ("Unknown")) = ("Unknown") := by decide

/-- C5 amended: `get_os_family` returns Windows exactly when the label is
present and contains "windows" case-insensitively, Unknown exactly when the
cell is missing (NaN), and Linux otherwise — in particular the defaulted
string label "Unknown" yields Linux, not Unknown. -/
theorem c5_os_family_amended :
    (∀ guest_os : Cell,
      (get_os_family guest_os = ("Windows") ↔
        (¬ guest_os = Cell.na ∧
          strContains (pyLower (pyStr guest_os)) ("windows") = true)) ∧
      (get_os_family guest_os = ("Unknown") ↔ guest_os = Cell.na) ∧
      (get_os_family guest_os = ("Linux") ↔
        (¬ guest_os = Cell.na ∧
          ¬ strContains (pyLower (pyStr guest_os)) ("windows") = true))) ∧
    get_os_family (Cell.str ("Unknown")) = ("Linux") := by
  refine ⟨fun guest_os => ?_, by decide⟩
  have hna : pdIsna guest_os = true ↔ guest_os = Cell.na := by
    cases guest_os <;> simp [pdIsna]
  unfold get_os_family
  split_ifs <;> simp_all

/-! ## Claims about migration waves and complexity-by-OS -/

/-- Three boolean filters that classify every element into exactly one
class split a list's length. -/
theorem three_filter_length {α : Type} (p q r : α → Bool) :
    ∀ l : List α,
      (∀ a ∈ l, (cond (p a) 1 0) + (cond (q a) 1 0) + (cond (r a) 1 0) = 1) →
      (l.filter p).length + (l.filter q).length + (l.filter r).length = l.length
  | [], _ => rfl
  | a :: as, h => by
    have ha := h a (List.mem_cons_self a as)
    have ih := three_filter_length p q r as (fun b hb => h b (List.mem_cons_of_mem a hb))
    cases hp : p a <;> cases hq : q a <;> cases hr : r a <;>
      simp [List.filter_cons, hp, hq, hr] at ha ⊢ <;> omega

/-- Five boolean filters that classify every element into exactly one
class split a list's length. -/
theorem five_filter_length {α : Type} (p q r s t : α → Bool) :
    ∀ l : List α,
      (∀ a ∈ l, (cond (p a) 1 0) + (cond (q a) 1 0) + (cond (r a) 1 0) +
        (cond (s a) 1 0) + (cond (t a) 1 0) = 1) →
      (l.filter p).length + (l.filter q).length + (l.filter r).length +
        (l.filter s).length + (l.filter t).length = l.length
  | [], _ => rfl
  | a :: as, h => by
    have ha := h a (List.mem_cons_self a as)
    have ih := five_filter_length p q r s t as
      (fun b hb => h b (List.mem_cons_of_mem a hb))
    cases hp : p a <;> cases hq : q a <;> cases hr : r a <;> cases hs : s a <;>
      cases ht : t a <;> simp [List.filter_cons, hp, hq, hr, hs, ht] at ha ⊢ <;> omega

/-- Every derived record lands in exactly one of: the four waves, or the
Unknown-OS-family leftover class. -/
theorem derived_wave_partition (n : NRec) :
    (cond (wave1Pred (deriveRecord n)) 1 0) + (cond (wave2Pred (deriveRecord n)) 1 0) +
      (cond (wave3Pred (deriveRecord n)) 1 0) + (cond (wave4Pred (deriveRecord n)) 1 0) +
      (cond ((deriveRecord n).os_family == ("Unknown")) 1 0) = 1 := by
  unfold deriveRecord wave1Pred wave2Pred wave3Pred wave4Pred
    get_os_family get_migration_complexity
  split_ifs <;> simp_all

/-- A derived record is caught by no wave filter exactly when its OS family
is Unknown. -/
theorem derived_no_wave_iff (n : NRec) :
    (!(wave1Pred (deriveRecord n) || wave2Pred (deriveRecord n) ||
        wave3Pred (deriveRecord n) || wave4Pred (deriveRecord n))) =
      ((deriveRecord n).os_family == ("Unknown")) := by
  unfold deriveRecord wave1Pred wave2Pred wave3Pred wave4Pred
    get_os_family get_migration_complexity
  split_ifs <;> simp_all

/-- A derived record's complexity is exactly one of Low, Medium, High. -/
theorem derived_complexity_three (n : NRec) :
    (cond ((deriveRecord n).complexity == ("Low")) 1 0) +
      (cond ((deriveRecord n).complexity == ("Medium")) 1 0) +
      (cond ((deriveRecord n).complexity == ("High")) 1 0) = 1 := by
  unfold deriveRecord get_os_family get_migration_complexity
  split_ifs <;> simp_all

/-- The `vm_count` sum over the returned waves equals the sum of the four
filter sizes (an empty filter contributes zero whether or not its wave is
emitted). -/
theorem waves_vm_count_sum (l : List DRec) :
    ((compute_migration_waves l).map (fun w => w.vm_count)).sum =
      (l.filter wave1Pred).length + (l.filter wave2Pred).length +
        (l.filter wave3Pred).length + (l.filter wave4Pred).length := by
  unfold compute_migration_waves
  dsimp only
  split_ifs <;>
    simp only [mkWave, List.map_append, List.sum_append, List.map_cons, List.map_nil,
      List.sum_cons, List.sum_nil] <;> omega

/-- C3 counterexample: on a single-record set whose record has a missing
guest-OS cell (Unknown family) and 100 GB memory (hence Medium complexity),
the waves' `vm_count`s sum to 0 while the record count is 1 and no record
has Unknown family together with Low complexity — so the claimed equality
"total minus the (Unknown, Low) records" fails, and a record outside that
class is excluded from all four waves. -/
theorem c3_counterexample :
    ((compute_migration_waves (add_derived_fields [c3Rec])).map
        (fun w => w.vm_count)).sum = 0 ∧
    (add_derived_fields [c3Rec]).length = 1 ∧
    ((add_derived_fields [c3Rec]).filter
        (fun r => r.os_family == ("Unknown") && r.complexity == ("Low"))).length = 0 ∧
    (deriveRecord c3Rec).os_family = ("Unknown") ∧
    (deriveRecord c3Rec).complexity = ("Medium") := by decide

/-- C3 amended: the waves' `vm_count`s sum to the record count minus the
number of records with Unknown OS family (so the sum is at most the total),
and the records excluded from all four waves are exactly those with Unknown
OS family — which can carry Low or Medium complexity, not only Low. -/
theorem c3_waves_amended (ns : List NRec) :
    ((compute_migration_waves (add_derived_fields ns)).map
          (fun w => w.vm_count)).sum +
        ((add_derived_fields ns).filter
          (fun r => r.os_family == ("Unknown"))).length =
      (add_derived_fields ns).length ∧
    ((compute_migration_waves (add_derived_fields ns)).map
        (fun w => w.vm_count)).sum ≤ (add_derived_fields ns).length ∧
    (add_derived_fields ns).filter
        (fun r => !(wave1Pred r || wave2Pred r || wave3Pred r || wave4Pred r)) =
      (add_derived_fields ns).filter (fun r => r.os_family == ("Unknown")) := by
  have hpart :
      ∀ r ∈ add_derived_fields ns,
        (cond (wave1Pred r) 1 0) + (cond (wave2Pred r) 1 0) +
          (cond (wave3Pred r) 1 0) + (cond (wave4Pred r) 1 0) +
          (cond (r.os_family == ("Unknown")) 1 0) = 1 := by
    intro r hr
    rcases List.mem_map.1 hr with ⟨n, _, rfl⟩
    exact derived_wave_partition n
  have hsum := five_filter_length wave1Pred wave2Pred wave3Pred wave4Pred
    (fun r => r.os_family == ("Unknown")) (add_derived_fields ns) hpart
  have hvm := waves_vm_count_sum (add_derived_fields ns)
  refine ⟨by omega, by omega, ?_⟩
  refine List.filter_congr ?_
  intro r hr
  rcases List.mem_map.1 hr with ⟨n, _, rfl⟩
  exact derived_no_wave_iff n

/-- C10: `compute_complexity_by_os` keys are exactly the distinct
consolidated-OS values of the record set (in first-occurrence order), and
for each key the Low, Medium and High counts sum to the number of records
with that consolidated-OS value. -/
theorem c10_complexity_by_os (ns : List NRec) :
    ((compute_complexity_by_os (add_derived_fields ns)).map Prod.fst =
      uniqueAux [] ((add_derived_fields ns).map (fun r => r.os_consolidated))) ∧
    ∀ pr ∈ compute_complexity_by_os (add_derived_fields ns),
      pr.2.1 + pr.2.2.1 + pr.2.2.2 =
        ((add_derived_fields ns).filter
          (fun r => r.os_consolidated == pr.1)).length := by
  constructor
  · simp [compute_complexity_by_os, List.map_map, Function.comp_def]
  · intro pr hpr
    rcases List.mem_map.1 hpr with ⟨os, _, rfl⟩
    refine three_filter_length _ _ _ _ ?_
    intro r hr
    rcases List.mem_map.1 (List.mem_filter.1 hr).1 with ⟨n, _, rfl⟩
    exact derived_complexity_three n

/-- C10 witness: the theorem instantiated at a concrete one-record set
(an RHEL 8.6 Linux record of Low complexity). -/
theorem c10_witness :
    (1:ℕ) + 0 + 0 =
      ((add_derived_fields [c10Rec]).filter
        (fun r => r.os_consolidated == ("RHEL 8"))).length :=
  (c10_complexity_by_os [c10Rec]).2 (("RHEL 8"), (1, 0, 0)) (by decide)

/-! ## Claims about growth trends -/

/-- Inserting into a list is a permutation of consing. -/
theorem insertLe_perm {α : Type} (le : α → α → Bool) (a : α) :
    ∀ l : List α, List.Perm (insertLe le a l) (a :: l)
  | [] => List.Perm.refl _
  | b :: bs => by
    unfold insertLe
    split_ifs
    · exact List.Perm.refl _
    · exact ((insertLe_perm le a bs).cons b).trans (List.Perm.swap a b bs)

/-- Insertion sort permutes its input. -/
theorem sortLe_perm {α : Type} (le : α → α → Bool) :
    ∀ l : List α, List.Perm (sortLe le l) l
  | [] => List.Perm.refl _
  | a :: as => (insertLe_perm le a (sortLe le as)).trans ((sortLe_perm le as).cons a)

/-- The head of an insertion is the new element or the old head. -/
theorem insertLe_head {α : Type} (le : α → α → Bool) (a : α) :
    ∀ l : List α, (insertLe le a l).head? = some a ∨ (insertLe le a l).head? = l.head?
  | [] => Or.inl rfl
  | b :: bs => by
    unfold insertLe
    split_ifs
    · exact Or.inl rfl
    · exact Or.inr rfl

/-- Inserting into a chain-sorted list keeps it chain-sorted, given a total
comparison. -/
theorem insertLe_chain' {α : Type} (le : α → α → Bool)
    (htot : ∀ a b : α, le a b = true ∨ le b a = true) (a : α) :
    ∀ l : List α, List.Chain' (fun x y => le x y = true) l →
      List.Chain' (fun x y => le x y = true) (insertLe le a l)
  | [], _ => List.chain'_singleton a
  | b :: bs, h => by
    unfold insertLe
    split_ifs with hab
    · exact List.chain'_cons'.2 ⟨fun y hy => by simp at hy; subst hy; exact hab, h⟩
    · have hba : le b a = true := (htot a b).resolve_left (by simp_all)
      have htail := (List.chain'_cons'.1 h).2
      have hhead := (List.chain'_cons'.1 h).1
      refine List.chain'_cons'.2 ⟨?_, insertLe_chain' le htot a bs htail⟩
      intro y hy
      rcases insertLe_head le a bs with hh | hh
      · rw [hh] at hy; simp at hy; subst hy; exact hba
      · rw [hh] at hy; exact hhead y hy

/-- Insertion sort chain-sorts its input, given a total comparison. -/
theorem sortLe_chain' {α : Type} (le : α → α → Bool)
    (htot : ∀ a b : α, le a b = true ∨ le b a = true) :
    ∀ l : List α, List.Chain' (fun x y => le x y = true) (sortLe le l)
  | [] => List.chain'_nil
  | a :: as => insertLe_chain' le htot a (sortLe le as) (sortLe_chain' le htot as)

/-- `dateLe` is total. -/
theorem dateLe_total : ∀ a b : NRec, dateLe a b = true ∨ dateLe b a = true := by
  intro a b
  simp [dateLe]
  omega

/-- In a key-chain-sorted list, the head key bounds every later key. -/
theorem chain'_key_le_head {α : Type} (key : α → ℕ) :
    ∀ (a : α) (l : List α),
      List.Chain' (fun x y => key x ≤ key y) (a :: l) →
      ∀ x ∈ l, key a ≤ key x
  | _, [], _, _, hx => absurd hx (List.not_mem_nil _)
  | a, b :: bs, h, x, hx => by
    have hab := (List.chain'_cons'.1 h).1 b rfl
    rcases List.mem_cons.1 hx with rfl | hx
    · exact hab
    · exact hab.trans (chain'_key_le_head key b bs (List.chain'_cons'.1 h).2 x hx)

/-- The first emitted key of `runsAux` is its running key. -/
theorem runsAux_head {α : Type} (key : α → ℕ) :
    ∀ (l : List α) (m : ℕ) (acc : List α),
      ((runsAux key m acc l).map Prod.fst).head? = some m
  | [], _, _ => rfl
  | a :: as, m, acc => by
    unfold runsAux
    split_ifs with hk
    · exact runsAux_head key as m (a :: acc)
    · rfl

/-- The keys `runsAux` emits are strictly increasing when the input keys
are non-decreasing and bounded below by the running key. -/
theorem runsAux_keys_chain {α : Type} (key : α → ℕ) :
    ∀ (l : List α) (m : ℕ) (acc : List α),
      List.Chain' (fun x y => key x ≤ key y) l →
      (∀ x ∈ l, m ≤ key x) →
      List.Chain' (· < ·) ((runsAux key m acc l).map Prod.fst)
  | [], _, _, _, _ => List.chain'_singleton _
  | a :: as, m, acc, hc, hb => by
    unfold runsAux
    have htail := (List.chain'_cons'.1 hc).2
    have hbound := chain'_key_le_head key a as hc
    split_ifs with hk
    · have hm : key a = m := by simpa using hk
      exact runsAux_keys_chain key as m (a :: acc) htail
        (fun x hx => hm ▸ hbound x hx)
    · have hm : m < key a := by
        have := hb a (List.mem_cons_self a as)
        have : ¬ key a = m := by simpa using hk
        omega
      rw [List.map_cons]
      refine List.chain'_cons'.2 ⟨?_, runsAux_keys_chain key as (key a) [a] htail hbound⟩
      intro y hy
      rw [runsAux_head key as (key a) [a]] at hy
      simp at hy
      subst hy
      exact hm
  termination_by l => l.length

/-- The groups of `runsAux` flatten back to the accumulator and input. -/
theorem runsAux_flatten {α : Type} (key : α → ℕ) :
    ∀ (l : List α) (m : ℕ) (acc : List α),
      ((runsAux key m acc l).map Prod.snd).flatten = acc.reverse ++ l
  | [], m, acc => by simp [runsAux]
  | a :: as, m, acc => by
    unfold runsAux
    split_ifs with hk
    · rw [runsAux_flatten key as m (a :: acc)]
      simp
    · rw [List.map_cons, List.flatten_cons, runsAux_flatten key as (key a) [a]]
      simp
  termination_by l => l.length

/-- The keys of `runsBy` are strictly increasing on key-sorted input. -/
theorem runsBy_keys_chain {α : Type} (key : α → ℕ) :
    ∀ l : List α, List.Chain' (fun x y => key x ≤ key y) l →
      List.Chain' (· < ·) ((runsBy key l).map Prod.fst)
  | [], _ => List.chain'_nil
  | a :: as, h => runsAux_keys_chain key as (key a) [a]
      (List.chain'_cons'.1 h).2 (chain'_key_le_head key a as h)

/-- The groups of `runsBy` flatten back to the input. -/
theorem runsBy_flatten {α : Type} (key : α → ℕ) :
    ∀ l : List α, ((runsBy key l).map Prod.snd).flatten = l
  | [] => rfl
  | a :: as => by
    unfold runsBy
    rw [runsAux_flatten key as (key a) [a]]
    rfl

/-- `cumsum` preserves length. -/
theorem cumsum_length {α : Type} [Add α] :
    ∀ l : List α, (cumsum l).length = l.length
  | [] => rfl
  | x :: xs => by simp [cumsum, cumsum_length xs]

/-- The head of `cumsum` is the head of the input. -/
theorem cumsum_head {α : Type} [Add α] :
    ∀ l : List α, (cumsum l).head? = l.head?
  | [] => rfl
  | _ :: _ => rfl

/-- `cumsum` of a list of non-negative entries is non-decreasing. -/
theorem cumsum_chain' {α : Type} [OrderedAddCommMonoid α] :
    ∀ l : List α, (∀ x ∈ l, 0 ≤ x) → List.Chain' (· ≤ ·) (cumsum l)
  | [], _ => List.chain'_nil
  | x :: xs, h => by
    have ih := cumsum_chain' xs (fun y hy => h y (List.mem_cons_of_mem x hy))
    rw [cumsum]
    refine List.chain'_cons'.2 ⟨?_, ?_⟩
    · intro y hy
      rw [List.head?_map, cumsum_head] at hy
      cases hxs : xs.head? with
      | none => rw [hxs] at hy; simp at hy
      | some z =>
        rw [hxs] at hy
        simp at hy
        subst hy
        have hz : 0 ≤ z :=
          h z (List.mem_cons_of_mem x (List.mem_of_mem_head? hxs))
        simpa using le_add_of_nonneg_right hz
    · exact (List.chain'_map _).2 (ih.imp (fun a b hab => by simpa using add_le_add_left hab x))

/-- The last entry of `cumsum` is the total sum. -/
theorem cumsum_getLast {α : Type} [AddCommMonoid α] :
    ∀ l : List α, l ≠ [] → (cumsum l).getLast? = some l.sum
  | [], h => absurd rfl h
  | [x], _ => by simp [cumsum]
  | x :: y :: xs, _ => by
    have ih := cumsum_getLast (y :: xs) (by simp)
    have hx : cumsum (x :: y :: xs) =
        x :: (cumsum (y :: xs)).map (fun z => x + z) := rfl
    have hy : cumsum (y :: xs) = y :: (cumsum xs).map (fun z => y + z) := rfl
    rw [hx, hy, List.map_cons, List.getLast?_cons_cons, ← List.map_cons, ← hy,
      List.getLast?_map, ih]
    simp [List.sum_cons]

/-- C8: with temporal data and at least one dated record, the growth-trend
series are all of one length, the months are strictly increasing, the three
cumulative series are non-decreasing, and the final cumulative VM count is
the number of dated records.  Non-negative memory and vCPU values are
assumed, as the data model requires of derived record sets. -/
theorem c8_growth_trends (l : List NRec)
    (hdated : ∃ r ∈ l, r.creation_date.isSome = true)
    (hgood : ∀ r ∈ l,
      pdIsna r.vm_name = false ∧ 0 ≤ r.num_of_cpus ∧ 0 ≤ r.mem_size_GB) :
    ∃ t, compute_growth_trends true l = some t ∧
      t.monthly_vms.length = t.months.length ∧
      t.monthly_vcpus.length = t.months.length ∧
      t.monthly_memory.length = t.months.length ∧
      t.cumulative_vms.length = t.months.length ∧
      t.cumulative_vcpus.length = t.months.length ∧
      t.cumulative_memory.length = t.months.length ∧
      List.Chain' (· < ·) t.months ∧
      List.Chain' (· ≤ ·) t.cumulative_vms ∧
      List.Chain' (· ≤ ·) t.cumulative_vcpus ∧
      List.Chain' (· ≤ ·) t.cumulative_memory ∧
      t.cumulative_vms.getLast? =
        some (l.filter (fun r => r.creation_date.isSome)).length := by
  have hne : (l.filter (fun r => r.creation_date.isSome)).length ≠ 0 := by
    rcases hdated with ⟨r, hr, hs⟩
    have hmem : r ∈ l.filter (fun r => r.creation_date.isSome) :=
      List.mem_filter.2 ⟨hr, hs⟩
    intro h0
    rw [List.length_eq_zero] at h0
    rw [h0] at hmem
    exact absurd hmem (List.not_mem_nil r)
  have hperm := sortLe_perm dateLe (l.filter (fun r => r.creation_date.isSome))
  have hchain := sortLe_chain' dateLe dateLe_total
    (l.filter (fun r => r.creation_date.isSome))
  have hkeychain : List.Chain' (fun x y => monthOf x ≤ monthOf y)
      (sortLe dateLe (l.filter (fun r => r.creation_date.isSome))) := by
    refine hchain.imp ?_
    intro a b h
    simp [dateLe] at h
    unfold monthOf
    omega
  have hmonths := runsBy_keys_chain monthOf _ hkeychain
  have hflat := runsBy_flatten monthOf
    (sortLe dateLe (l.filter (fun r => r.creation_date.isSome)))
  have hmem : ∀ g ∈ runsBy monthOf
      (sortLe dateLe (l.filter (fun r => r.creation_date.isSome))),
      ∀ r ∈ g.2, r ∈ l := by
    intro g hg r hr
    have hrs : r ∈ ((runsBy monthOf
        (sortLe dateLe (l.filter (fun r => r.creation_date.isSome)))).map
          Prod.snd).flatten :=
      List.mem_flatten.2 ⟨g.2, List.mem_map.2 ⟨g, hg, rfl⟩, hr⟩
    rw [hflat] at hrs
    exact (List.mem_filter.1 (hperm.subset hrs)).1
  have hgroupsne : runsBy monthOf
      (sortLe dateLe (l.filter (fun r => r.creation_date.isSome))) ≠ [] := by
    intro hnil
    have : (sortLe dateLe (l.filter (fun r => r.creation_date.isSome))) = [] := by
      rw [← hflat, hnil]
      rfl
    rw [← hperm.length_eq] at hne
    rw [this] at hne
    exact hne rfl
  have hmv : (runsBy monthOf
        (sortLe dateLe (l.filter (fun r => r.creation_date.isSome)))).map
        (fun g => (g.2.filter (fun r => !(pdIsna r.vm_name))).length) =
      (runsBy monthOf
        (sortLe dateLe (l.filter (fun r => r.creation_date.isSome)))).map
        (fun g => g.2.length) := by
    refine List.map_congr_left ?_
    intro g hg
    congr 1
    refine List.filter_eq_self.2 ?_
    intro r hr
    simp [(hgood r (hmem g hg r hr)).1]
  refine ⟨trendsOf l, ?_, ?_, ?_, ?_, ?_, ?_, ?_, ?_, ?_, ?_, ?_, ?_⟩
  · unfold compute_growth_trends
    rw [if_neg (by simp)]
    dsimp only
    rw [if_neg hne]
  · simp [trendsOf, monthlyVms]
  · simp [trendsOf, monthlyVcpus]
  · simp [trendsOf, monthlyMemory]
  · simp [trendsOf, monthlyVms, cumsum_length]
  · simp [trendsOf, monthlyVcpus, cumsum_length]
  · simp [trendsOf, monthlyMemory, cumsum_length]
  · exact hmonths
  · exact cumsum_chain' _ (fun x _ => Nat.zero_le x)
  · refine cumsum_chain' _ ?_
    intro x hx
    simp only [monthlyVcpus] at hx
    rcases List.mem_map.1 hx with ⟨g, hg, rfl⟩
    refine List.sum_nonneg ?_
    intro y hy
    rcases List.mem_map.1 hy with ⟨r, hr, rfl⟩
    exact (hgood r (hmem g hg r hr)).2.1
  · refine cumsum_chain' _ ?_
    intro x hx
    simp only [monthlyMemory] at hx
    rcases List.mem_map.1 hx with ⟨g, hg, rfl⟩
    refine List.sum_nonneg ?_
    intro y hy
    rcases List.mem_map.1 hy with ⟨r, hr, rfl⟩
    exact (hgood r (hmem g hg r hr)).2.2
  · show (cumsum ((runsBy monthOf
        (sortLe dateLe (l.filter (fun r => r.creation_date.isSome)))).map
        (fun g => (g.2.filter (fun r => !(pdIsna r.vm_name))).length))).getLast? = _
    rw [hmv, cumsum_getLast _ (by simpa using hgroupsne)]
    congr 1
    have hlen : ((runsBy monthOf
          (sortLe dateLe (l.filter (fun r => r.creation_date.isSome)))).map
          (fun g => g.2.length)).sum =
        ((runsBy monthOf
          (sortLe dateLe (l.filter (fun r => r.creation_date.isSome)))).map
          Prod.snd |>.flatten).length := by
      rw [List.length_flatten, List.map_map]
      rfl
    rw [hlen, hflat, hperm.length_eq]

/-- C8 witness: the theorem instantiated at a concrete three-record set
with two dated records in different months (the hypotheses are discharged
by computation, and the trend bundle the theorem produces is the one whose
last cumulative VM count is the number of dated records, here 2). -/
theorem c8_witness :
    (compute_growth_trends true c8Recs).isSome = true ∧
    ((compute_growth_trends true c8Recs).getD (trendsOf [])).cumulative_vms.getLast? =
      some 2 := by
  obtain ⟨t, ht, hrest⟩ := c8_growth_trends c8Recs (by decide) (by decide)
  rw [ht]
  refine ⟨rfl, ?_⟩
  have h2 : (c8Recs.filter (fun r => r.creation_date.isSome)).length = 2 := by decide
  rw [Option.getD_some, hrest.2.2.2.2.2.2.2.2.2.2, h2]

/-! ## Claims about statistics without temporal data -/

/-- C9: when temporal data is unavailable, or no record carries a valid
creation date, the statistics contain none of the five date-derived keys
(absent, not zero-filled), every non-temporal key is still present, and
`compute_growth_trends` returns the unavailable sentinel. -/
theorem c9_no_temporal_keys (has_date_data : Bool) (l : List NRec)
    (h : has_date_data = false ∨ ∀ r ∈ l, r.creation_date = none) :
    (∀ k ∈ [("first_vm_date"), ("last_vm_date"), ("avg_vms_per_month"),
        ("peak_month"), ("peak_month_count")],
      (compute_statistics has_date_data l).lookup k = none) ∧
    (∀ k ∈ [("total_vms"), ("total_vcpus"), ("total_memory_gb"),
        ("total_storage_provisioned_gb"), ("total_storage_used_gb"),
        ("clusters"), ("hosts"), ("running_vms"), ("stopped_vms")],
      ((compute_statistics has_date_data l).lookup k).isSome = true) ∧
    compute_growth_trends has_date_data l = none := by
  have hds : date_stats has_date_data l = [] := by
    rcases h with rfl | hnone
    · rfl
    · have hvalid : l.filterMap (fun r => r.creation_date) = [] :=
        List.filterMap_eq_nil_iff.2 hnone
      unfold date_stats
      dsimp only
      rw [hvalid]
      split_ifs <;> simp_all
  have hcs : compute_statistics has_date_data l = base_stats l := by
    unfold compute_statistics
    rw [hds, List.append_nil]
  refine ⟨?_, ?_, ?_⟩
  · intro k hk
    rw [hcs]
    fin_cases hk <;> rfl
  · intro k hk
    rw [hcs]
    fin_cases hk <;> rfl
  · rcases h with rfl | hnone
    · rfl
    · have hfil : l.filter (fun r => r.creation_date.isSome) = [] := by
        refine List.filter_eq_nil_iff.2 ?_
        intro r hr
        simp [hnone r hr]
      unfold compute_growth_trends
      dsimp only
      rw [hfil]
      split_ifs <;> simp_all

/-- C9 witness: the theorem instantiated with temporal data reported
available but a record set whose single record has no creation date. -/
theorem c9_witness :
    (compute_statistics true [c3Rec]).lookup ("first_vm_date") = none ∧
    (compute_statistics true [c3Rec]).lookup ("peak_month") = none ∧
    ((compute_statistics true [c3Rec]).lookup ("total_vms")).isSome = true ∧
    compute_growth_trends true [c3Rec] = none := by
  obtain ⟨h1, h2, h3⟩ := c9_no_temporal_keys true [c3Rec] (Or.inr (by decide))
  exact ⟨h1 ("first_vm_date") (by simp), h1 ("peak_month") (by simp),
    h2 ("total_vms") (by simp), h3⟩

/-! ## Claims about the processors' data cleaning -/

/-- C1 (code bug): on a VMware export lacking a CPUs column, `_clean_data`
raises `KeyError('num_of_cpus')` instead of defaulting the field to 0 —
the adjacent memory and storage columns do carry `in df.columns` guards
with zero defaults, so normalization fails on exactly the per-record data
problem the spec says is never fatal. -/
theorem c1_missing_cpus_raises :
    VMwareProcessor.clean_data c1Table = Except.error ("KeyError: num_of_cpus") ∧
    c1Table.hasCpus = false := by decide

/-- Truncation toward zero preserves non-negativity. -/
theorem truncInt_nonneg (q : ℚ) (h : 0 ≤ q) : 0 ≤ truncInt q := by
  unfold truncInt
  rw [if_neg (not_lt.2 h)]
  exact Int.floor_nonneg.2 h

/-- Banker's rounding preserves non-negativity. -/
theorem roundHalfEven_nonneg (q : ℚ) (h : 0 ≤ q) : 0 ≤ roundHalfEven q := by
  unfold roundHalfEven
  have hf : 0 ≤ ⌊q⌋ := Int.floor_nonneg.2 h
  dsimp only
  split_ifs <;> omega

/-- Two-decimal banker's rounding preserves non-negativity. -/
theorem round2_nonneg (q : ℚ) (h : 0 ≤ q) : 0 ≤ round2 q := by
  unfold round2
  have h1 : (0 : ℚ) ≤ (roundHalfEven (q * 100) : ℚ) := by
    exact_mod_cast roundHalfEven_nonneg (q * 100) (by positivity)
  positivity

/-- The coerce-and-fill value of a non-negative cell is non-negative. -/
theorem cellNonNeg_getD (c : Cell) (h : cellNonNegB c = true) :
    0 ≤ (to_numeric c).getD 0 := by
  unfold cellNonNegB at h
  cases hc : to_numeric c <;> rw [hc] at h <;> simp_all

/-- C2 counterexample: the vmware variant keeps a row whose memory exceeds
10 times the 99th percentile of memory across all rows (memory sizes
-1000 GB and 1 GB; the percentile is -9.01 and the 1 GB row exceeds -90.1),
so the outlier guard the claim attributes to both variants is not applied
by the vmware variant. -/
theorem c2_counterexample :
    (VMwareProcessor.clean_data c2CexTable).map
        (fun o => o.recs.map (fun r => r.mem_size_GB)) =
      Except.ok [-1000, 1] ∧
    quantile99 [Cell.num (-1000), Cell.num 1] = Except.ok (some (-901/100)) ∧
    ((10 : ℚ) * (-901/100) < (1 : ℚ)) := by decide

/-- C2 amended: only the rhv variant applies the outlier guard, and only
when more than one named row remains and the memory column is present; it
then keeps exactly the rows whose memory is at most 10 times the 99th
percentile of memory; with at most one row, or without a memory column, it
drops nothing; and the vmware variant performs no outlier filtering at all
— whenever its cleaning succeeds, every named row is returned. -/
theorem c2_outlier_guard_amended :
    (∀ (t : RTable) (q : ℚ),
      t.hasName = true → t.hasMem = true →
      (t.rows.filter (fun r => nameKept r.vm_name)).length > 1 →
      quantile99 ((t.rows.filter (fun r => nameKept r.vm_name)).map
        (fun r => r.mem)) = Except.ok (some q) →
      RHVProcessor.clean_data t = Except.ok
        (((t.rows.filter (fun r => nameKept r.vm_name)).filter
            (fun r => cellLe r.mem (q * 10))).map (rhvMkRec t))) ∧
    (∀ t : RTable,
      t.hasName = true →
      ((t.rows.filter (fun r => nameKept r.vm_name)).length ≤ 1 ∨
        t.hasMem = false) →
      RHVProcessor.clean_data t = Except.ok
        ((t.rows.filter (fun r => nameKept r.vm_name)).map (rhvMkRec t))) ∧
    (∀ (t : VTable) (out : VOut),
      VMwareProcessor.clean_data t = Except.ok out →
      out.recs.length = (t.rows.filter (fun r => nameKept r.vm_name)).length) := by
  refine ⟨?_, ?_, ?_⟩
  · intro t q hname hmem hlen hq
    unfold RHVProcessor.clean_data
    rw [if_neg (by simp [hname])]
    dsimp only
    rw [if_pos ⟨hlen, hmem⟩, hq]
  · intro t hname hcond
    unfold RHVProcessor.clean_data
    rw [if_neg (by simp [hname])]
    dsimp only
    rw [if_neg ?hc]
    case hc =>
      rcases hcond with h | h
      · exact fun hc => absurd hc.1 (by omega)
      · exact fun hc => by rw [h] at hc; exact absurd hc.2 (by simp)
  · intro t out h
    unfold VMwareProcessor.clean_data at h
    dsimp only at h
    split_ifs at h
    rw [Except.ok.injEq] at h
    rw [← h]
    simp

/-- C2 witness: the amended theorem applied to concrete tables — a 3-row
rhv table with the guard active (its 99th memory percentile is 2.98), a
1-row rhv table with the guard skipped, and a 2-row vmware table. -/
theorem c2_witness :
    RHVProcessor.clean_data c2aTable = Except.ok
      (((c2aTable.rows.filter (fun r => nameKept r.vm_name)).filter
          (fun r => cellLe r.mem ((149/50 : ℚ) * 10))).map (rhvMkRec c2aTable)) ∧
    RHVProcessor.clean_data c2bTable = Except.ok
      ((c2bTable.rows.filter (fun r => nameKept r.vm_name)).map (rhvMkRec c2bTable)) ∧
    c2cOut.recs.length =
      (c2cTable.rows.filter (fun r => nameKept r.vm_name)).length :=
  ⟨c2_outlier_guard_amended.1 c2aTable (149/50) rfl rfl (by decide) (by decide),
   c2_outlier_guard_amended.2.1 c2bTable rfl (Or.inl (by decide)),
   c2_outlier_guard_amended.2.2 c2cTable c2cOut (by decide)⟩

/-- C4 counterexample: a negative numeric memory cell passes the rhv
coercion unchanged — the produced Normalized Record carries memory
-5 GB, so the non-negativity the claim asserts fails. -/
theorem c4_counterexample :
    (RHVProcessor.clean_data c4Table).map
        (fun recs => recs.map (fun r => r.mem_size_GB)) = Except.ok [-5] ∧
    ((-5 : ℤ) < 0) := by decide

/-- Fields of an rhv record built from a row with non-negative cells are
non-negative. -/
theorem rhvMkRec_nonneg (t : RTable) (r : RRow)
    (h : cellNonNegB r.mem = true ∧ cellNonNegB r.cpus = true ∧
      cellNonNegB r.storage = true ∧ cellNonNegB r.used = true) :
    0 ≤ (rhvMkRec t r).mem_size_GB ∧ 0 ≤ (rhvMkRec t r).num_of_cpus ∧
      (∀ s, (rhvMkRec t r).storage_size_GB = some s → 0 ≤ s) ∧
      (∀ s, (rhvMkRec t r).used_size_GB = some s → 0 ≤ s) := by
  unfold rhvMkRec
  refine ⟨?_, ?_, ?_, ?_⟩ <;> dsimp only
  · split_ifs
    · exact truncInt_nonneg _ (cellNonNeg_getD _ h.1)
    · exact le_refl 0
  · split_ifs
    · exact truncInt_nonneg _ (cellNonNeg_getD _ h.2.1)
    · exact le_refl 0
  · intro s hs
    rw [Option.some.injEq] at hs
    subst hs
    split_ifs
    · exact cellNonNeg_getD _ h.2.2.1
    · exact le_refl 0
  · intro s hs
    rw [Option.some.injEq] at hs
    subst hs
    split_ifs
    · exact cellNonNeg_getD _ h.2.2.2
    · exact le_refl 0

/-- Fields of a vmware record built from a row with non-negative cells are
non-negative. -/
theorem vmwareMkRec_nonneg (t : VTable) (allNa : Bool) (r : VRow)
    (h : cellNonNegB r.memory_mb = true ∧ cellNonNegB r.cpus = true ∧
      cellNonNegB r.prov_mb = true ∧ cellNonNegB r.used_mb = true) :
    0 ≤ (vmwareMkRec t allNa r).mem_size_GB ∧
      0 ≤ (vmwareMkRec t allNa r).num_of_cpus ∧
      (∀ s, (vmwareMkRec t allNa r).storage_size_GB = some s → 0 ≤ s) ∧
      (∀ s, (vmwareMkRec t allNa r).used_size_GB = some s → 0 ≤ s) := by
  unfold vmwareMkRec
  refine ⟨?_, ?_, ?_, ?_⟩ <;> dsimp only
  · split_ifs
    · exact roundHalfEven_nonneg _
        (div_nonneg (cellNonNeg_getD _ h.1) (by norm_num))
    · exact le_refl 0
  · exact truncInt_nonneg _ (cellNonNeg_getD _ h.2.1)
  · intro s hs
    split_ifs at hs
    · cases hp : to_numeric r.prov_mb with
      | none => rw [hp] at hs; simp at hs
      | some q =>
        rw [hp] at hs
        simp at hs
        subst hs
        have hq : 0 ≤ q := by
          have := h.2.2.1
          unfold cellNonNegB at this
          rw [hp] at this
          simpa using this
        exact round2_nonneg _ (div_nonneg hq (by norm_num))
    · rw [Option.some.injEq] at hs
      subst hs
      exact le_refl 0
  · intro s hs
    split_ifs at hs
    · cases hp : to_numeric r.used_mb with
      | none => rw [hp] at hs; simp at hs
      | some q =>
        rw [hp] at hs
        simp at hs
        subst hs
        have hq : 0 ≤ q := by
          have := h.2.2.2
          unfold cellNonNegB at this
          rw [hp] at this
          simpa using this
        exact round2_nonneg _ (div_nonneg hq (by norm_num))
    · rw [Option.some.injEq] at hs
      subst hs
      exact le_refl 0

/-- C4 amended: memory and vCPU are integers and the storage fields are
reals by construction, and all four are non-negative in every record either
variant produces from a table whose memory, vCPU and storage cells are
non-negative wherever they are numeric; a negative numeric cell, however,
passes through to the record (see the counterexample). -/
theorem c4_nonneg_amended :
    (∀ (t : RTable) (recs : List NRec),
      RHVProcessor.clean_data t = Except.ok recs →
      (∀ r ∈ t.rows, cellNonNegB r.mem = true ∧ cellNonNegB r.cpus = true ∧
        cellNonNegB r.storage = true ∧ cellNonNegB r.used = true) →
      ∀ n ∈ recs, 0 ≤ n.mem_size_GB ∧ 0 ≤ n.num_of_cpus ∧
        (∀ s, n.storage_size_GB = some s → 0 ≤ s) ∧
        (∀ s, n.used_size_GB = some s → 0 ≤ s)) ∧
    (∀ (t : VTable) (out : VOut),
      VMwareProcessor.clean_data t = Except.ok out →
      (∀ r ∈ t.rows, cellNonNegB r.memory_mb = true ∧
        cellNonNegB r.cpus = true ∧ cellNonNegB r.prov_mb = true ∧
        cellNonNegB r.used_mb = true) →
      ∀ n ∈ out.recs, 0 ≤ n.mem_size_GB ∧ 0 ≤ n.num_of_cpus ∧
        (∀ s, n.storage_size_GB = some s → 0 ≤ s) ∧
        (∀ s, n.used_size_GB = some s → 0 ≤ s)) := by
  constructor
  · intro t recs h hcells n hn
    have hrows : ∃ rows2 : List RRow,
        (∀ r ∈ rows2, r ∈ t.rows) ∧ recs = rows2.map (rhvMkRec t) := by
      unfold RHVProcessor.clean_data at h
      by_cases h1 : t.hasName
      case neg =>
        rw [if_pos (by simp [h1])] at h
        exact Except.noConfusion h
      rw [if_neg (by simp [h1])] at h
      dsimp only at h
      by_cases h2 : (t.rows.filter (fun r => nameKept r.vm_name)).length > 1 ∧
          t.hasMem = true
      case neg =>
        rw [if_neg h2, Except.ok.injEq] at h
        exact ⟨_, fun r hr => (List.mem_filter.1 hr).1, h.symm⟩
      rw [if_pos h2] at h
      cases hq : quantile99 ((t.rows.filter (fun r => nameKept r.vm_name)).map
          (fun r => r.mem)) with
      | error e =>
        rw [hq] at h
        exact Except.noConfusion h
      | ok oq =>
        cases oq with
        | none =>
          rw [hq, Except.ok.injEq] at h
          exact ⟨_, fun r hr =>
            (List.mem_filter.1 (List.mem_filter.1 hr).1).1, h.symm⟩
        | some qv =>
          rw [hq, Except.ok.injEq] at h
          exact ⟨_, fun r hr =>
            (List.mem_filter.1 (List.mem_filter.1 hr).1).1, h.symm⟩
    rcases hrows with ⟨rows2, hsub, rfl⟩
    rcases List.mem_map.1 hn with ⟨row, hrow, rfl⟩
    exact rhvMkRec_nonneg t row (hcells row (hsub row hrow))
  · intro t out h hcells n hn
    have hrecs : out.recs = (t.rows.filter (fun r => nameKept r.vm_name)).map
        (vmwareMkRec t ((t.rows.filter (fun r => nameKept r.vm_name)).all
          (fun r => pdIsna r.cluster_name))) := by
      unfold VMwareProcessor.clean_data at h
      dsimp only at h
      split_ifs at h
      rw [Except.ok.injEq] at h
      rw [← h]
    rw [hrecs] at hn
    rcases List.mem_map.1 hn with ⟨row, hrow, rfl⟩
    exact vmwareMkRec_nonneg t _ row (hcells row (List.mem_filter.1 hrow).1)

/-- C4 witness: the amended theorem applied to the 1-row rhv table with
cells 4 GB / 2 vCPU / 2 GB / 1 GB, instantiated at its produced record
(whose provisioned storage is the rational 2). -/
theorem c4_witness :
    0 ≤ (rhvMkRec c2bTable c2bRow).mem_size_GB ∧
    0 ≤ (rhvMkRec c2bTable c2bRow).num_of_cpus ∧
    ((0 : ℚ) ≤ 2) :=
  ⟨(c4_nonneg_amended.1 c2bTable
      ((c2bTable.rows.filter (fun r => nameKept r.vm_name)).map (rhvMkRec c2bTable))
      (by decide) (by decide) (rhvMkRec c2bTable c2bRow) (by decide)).1,
   (c4_nonneg_amended.1 c2bTable
      ((c2bTable.rows.filter (fun r => nameKept r.vm_name)).map (rhvMkRec c2bTable))
      (by decide) (by decide) (rhvMkRec c2bTable c2bRow) (by decide)).2.1,
   (c4_nonneg_amended.1 c2bTable
      ((c2bTable.rows.filter (fun r => nameKept r.vm_name)).map (rhvMkRec c2bTable))
      (by decide) (by decide) (rhvMkRec c2bTable c2bRow) (by decide)).2.2.1 2
      (by decide)⟩

end NewMigration
